import Mathlib

/-!
Verification of the Russound RNET client (`russound/russound.py`).

The definitions below are a shallow embedding of the protocol engine:
`__calc_checksum`, `__create_send_message`, `__find_signature`,
`__get_response_message`, and the zone-control value transforms
(`get_zone_info` payload extraction, `get_volume` doubling, `set_volume`
halving).  Messages are modelled at the two levels the source uses: as
lists of 2-hex-digit string tokens on the send path, and as lists of byte
values (`Nat`) on the receive path.
-/

namespace Russound

/-- Digits of `n` in lowercase hex, no prefix, no leading zeros
(`natToHex 0 = "0"`), exactly the digit part of Python's `hex(n)` for
`n ≥ 0` (`Nat.toDigits` emits lowercase letters for digit values above
nine, as `hex` does). -/
def natToHex (n : Nat) : String :=
  ⟨Nat.toDigits 16 n⟩

/-- Model of `hex(n).replace('0x', '')` from `__create_send_message`:
the hex digits of `n`, with a leading `-` for negative `n`
(Python's `hex(-1)` is `'-0x1'`, so the replacement leaves `'-1'`). -/
def pyHex (n : Int) : String :=
  if n < 0 then "-" ++ natToHex n.natAbs else natToHex n.toNat

/-- Model of `hex(n).lstrip("0x")` from `__calc_checksum`: `lstrip`
removes leading characters drawn from the set `{'0', 'x'}`, so `0`
becomes the empty string, a positive value keeps exactly its digits, and
a negative value keeps its full `-0x...` spelling (the leading `-` stops
the strip). -/
def pyHexLstrip (n : Int) : String :=
  if n < 0 then "-0x" ++ natToHex n.natAbs
  else if n = 0 then "" else natToHex n.toNat

/-- Value of a single hex digit character, upper or lower case
(non-digits map to 0; the source only ever parses valid hex tokens). -/
def hexDigitVal (c : Char) : Nat :=
  if 48 ≤ c.toNat ∧ c.toNat ≤ 57 then c.toNat - 48
  else if 97 ≤ c.toNat ∧ c.toNat ≤ 102 then c.toNat - 87
  else if 65 ≤ c.toNat ∧ c.toNat ≤ 70 then c.toNat - 55
  else 0

/-- Base-16 value of a digit string. -/
def parseHexNat (cs : List Char) : Nat :=
  cs.foldl (fun a c => a * 16 + hexDigitVal c) 0

/-- Model of Python's `int(value, 16)` on the tokens the source builds:
an optional leading `-` followed by hex digits. -/
def parseHexInt (s : String) : Int :=
  match s.data with
  | '-' :: rest => -(parseHexNat rest : Int)
  | cs => (parseHexNat cs : Int)

/-- `KEYPAD_CODE = '70'`: the fixed keypad identity substituted for
`@kk`. -/
def KEYPAD_CODE : String := "70"

/-- The running total of `__calc_checksum`: `output` starts at 0, each
token's `int(value, 16)` is added, and finally the token count
(`length`) is added. -/
def calc_checksum_output (data : List String) : Int :=
  data.foldl (fun acc v => acc + parseHexInt v) 0 + data.length

/-- The checksum value of `__calc_checksum`:
`output & int('0x007F', 16)`. -/
def calc_checksum_value (data : List String) : Int :=
  Int.land (calc_checksum_output data) 127

/-- `__calc_checksum`: appends the checksum token
(`hex(output & 0x7F).lstrip("0x")`) and the end-of-message token `'F7'`
to the token list. -/
def calc_checksum (data : List String) : List String :=
  data ++ [pyHexLstrip (calc_checksum_value data), "F7"]

/-- One placeholder-substitution step of `__create_send_message`.  The
source performs `string_message.replace` for `@cc`, `@zz`, `@kk`, `@pr`
in that order on the space-separated template; since every placeholder
is a whole space-delimited token and no substituted value contains a
space or another placeholder, this is equivalent to mapping the
substitution over the tokens. -/
def substToken (cc zz pr : String) (t : String) : String :=
  if t = "@cc" then cc
  else if t = "@zz" then zz
  else if t = "@kk" then KEYPAD_CODE
  else if t = "@pr" then pr
  else t

/-- `__create_send_message`: substitutes `cc = hex(controller-1)` (with
the `0x` prefix removed), `zz = hex(zone-1)` or the empty string when no
zone is given, the fixed keypad code, and `pr = hex(parameter)` or the
empty string, then splits into tokens (Python's `split()` drops the
empty tokens produced by empty substitutions) and appends checksum and
terminator via `__calc_checksum`. -/
def create_send_message (template : List String) (controller : Int)
    (zone : Option Int) (parameter : Option Int) : List String :=
  calc_checksum
    ((template.map (substToken
        (pyHex (controller - 1))
        (match zone with
         | some z => pyHex (z - 1)
         | none => "")
        (match parameter with
         | some p => pyHex p
         | none => ""))).filter (fun t => t != ""))

/-- The message template used by `set_power`. -/
def POWER_TEMPLATE : List String :=
  ["F0", "@cc", "00", "7F", "00", "00", "@kk", "05", "02", "02", "00",
   "00", "F1", "23", "00", "@pr", "00", "@zz", "00", "01"]

/-- The message template used by `set_volume`. -/
def VOLUME_TEMPLATE : List String :=
  ["F0", "@cc", "00", "7F", "00", "00", "@kk", "05", "02", "02", "00",
   "00", "F1", "21", "00", "@pr", "00", "@zz", "00", "01"]

/-- The scan loop of `__find_signature`: `for i in range(len(data_stream))`
tracking `index_of_last_f7` (updated to `i` whenever
`data_stream[i] == 247`, before the match test, as in the source) and
breaking with the match index as soon as
`data_stream[i:i+len(msg_signature)] == msg_signature` and
`len(data_stream) - i >= 24`.  The first argument after the stream and
signature is the number of loop iterations still to run — the caller
passes `stream.length`, so the recursion walks exactly
`range(len(data_stream))` — and `i` is the current index.  Returns
`(signature_match_index, index_of_last_f7)` as the loop leaves them. -/
def find_signature_loop (stream sig : List Nat) :
    Nat → Nat → Option Nat → Option Nat × Option Nat
  | 0, _, lastF7 => (none, lastF7)
  | rem + 1, i, lastF7 =>
      if (stream.drop i).take sig.length = sig ∧ 24 ≤ stream.length - i then
        (some i, if stream.getD i 0 = 247 then some i else lastF7)
      else
        find_signature_loop stream sig rem (i + 1)
          (if stream.getD i 0 = 247 then some i else lastF7)

/-- `__find_signature`: scans the buffered stream with
`find_signature_loop` (all `len(data_stream)` iterations, starting at
index 0 with no end marker seen).  On a match at `i` it returns the
slice `data_stream[i:len(data_stream)]` together with the unmodified
stream; on no match it returns `None` together with
`data_stream[index_of_last_f7:len(data_stream)]`, where a `None` slice
start means the whole stream is kept.  The signature bytes are the
`int(x, 16)` values of the signature string's tokens; we take that byte
list directly. -/
def find_signature (data_stream msg_signature : List Nat) :
    Option (List Nat) × List Nat :=
  match find_signature_loop data_stream msg_signature data_stream.length 0 none with
  | (some i, _) => (some (data_stream.drop i), data_stream)
  | (none, some j) => (none, data_stream.drop j)
  | (none, none) => (none, data_stream)

/-- The retry loop of `__get_response_message` for the case where a
response signature is expected: `i` is the number of socket reads
already performed, the second argument is the number of reads still
allowed, and `data` is the accumulated (already trimmed) buffer.  Each
iteration appends the bytes delivered by the next `recv` (an absent
entry of `reads` models a read that yielded no data), runs
`__find_signature`, breaks as soon as a match is found, and otherwise
continues with the trimmed remainder.  The returned `Nat` counts the
socket reads performed, so the timing claims can be stated. -/
def resp_loop (sig : List Nat) (reads : List (List Nat)) :
    Nat → Nat → List Nat → Option (List Nat) × Nat
  | i, 0, _ => (none, i)
  | i, rem + 1, data =>
      match find_signature (data ++ reads.getD i []) sig with
      | (some m, _) => (some m, i + 1)
      | (none, data2) => resp_loop sig reads (i + 1) rem data2

/-- `__get_response_message`: with no signature, `no_of_socket_reads`
is 1, the single pass never assigns `matching_message`, and `None` is
returned (the pair records the one read performed); with a signature,
`no_of_socket_reads` is 10 and the retry loop runs starting from an
empty buffer. -/
def get_response_message (resp_msg_signature : Option (List Nat))
    (reads : List (List Nat)) : Option (List Nat) × Nat :=
  match resp_msg_signature with
  | none => (none, 1)
  | some sig => resp_loop sig reads 0 10 []

/-- The buffer held by `__get_response_message` just before read attempt
`k` (0-based): empty before the first read, and afterwards the remainder
returned by `__find_signature` on the previous attempt's buffer. -/
def resp_buf (sig : List Nat) (reads : List (List Nat)) : Nat → List Nat
  | 0 => []
  | k + 1 => (find_signature (resp_buf sig reads k ++ reads.getD k []) sig).2

/-- The matching message (if any) that read attempt `k` of
`__get_response_message` observes. -/
def attempt_result (sig : List Nat) (reads : List (List Nat)) (k : Nat) :
    Option (List Nat) :=
  (find_signature (resp_buf sig reads k ++ reads.getD k []) sig).1

/-- The single-field payload read of `get_zone_info`:
`matching_message[return_variable + 11]` (offsets 11, 12, 13 for power,
source, volume).  `none` models Python's `IndexError` when the index is
past the end of the message. -/
def get_zone_info_value (matching_message : List Nat)
    (return_variable : Nat) : Option Nat :=
  matching_message[return_variable + 11]?

/-- The payload extraction of `get_zone_info` for both calling modes:
`return_variable == 4` returns the three payload bytes
`[matching_message[11], matching_message[12], matching_message[13]]`,
any other value returns the single byte at offset
`return_variable + 11`.  `none` models an out-of-range index. -/
def zone_info_extract (matching_message : List Nat)
    (return_variable : Nat) : Option (List Nat) :=
  if return_variable = 4 then
    match matching_message[11]?, matching_message[12]?,
        matching_message[13]? with
    | some a, some b, some c => some [a, b, c]
    | _, _, _ => none
  else
    (matching_message[return_variable + 11]?).map (fun v => [v])

/-- `get_volume`: reads `get_zone_info(controller, zone, 2)` (payload
offset 13 of the matched response, or `None` when no response matched)
and doubles it when present (`volume_level *= 2`). -/
def get_volume_from_response (resp : Option (List Nat)) : Option Nat :=
  match resp with
  | none => none
  | some m => (get_zone_info_value m 2).map (fun v => v * 2)

/-- The parameter `set_volume` passes to `__create_send_message`:
`volume // 2`. -/
def set_volume_param (volume : Nat) : Nat := volume / 2

/-- The full message `set_volume` builds:
`__create_send_message(VOLUME_TEMPLATE, controller, zone, volume // 2)`. -/
def set_volume_msg (controller zone : Int) (volume : Nat) : List String :=
  create_send_message VOLUME_TEMPLATE controller (some zone)
    (some ((volume / 2 : Nat) : Int))

/-- Modelled from the spec (§4.3): the wildcard-aware match predicate
the specification ascribes to `__find_signature` — a window at `i`
matches when at least 24 bytes remain from `i` and every non-wildcard
signature position (value ≠ 255) agrees with the stream byte at the
corresponding offset.  This definition exists only to be compared with
the code's actual exact-equality comparison. -/
def spec_matches_at (stream sig : List Nat) (i : Nat) : Prop :=
  24 ≤ stream.length - i ∧
    ∀ k, k < sig.length →
      sig.getD k 0 = 255 ∨ stream.getD (i + k) 0 = sig.getD k 0

/-! ## Helper lemmas -/

theorem toDigitsCore_ne_nil (b : Nat) :
    ∀ (f n : Nat) (ds : List Char), ds ≠ [] → Nat.toDigitsCore b f n ds ≠ [] := by
  intro f
  induction f with
  | zero => intro n ds h; simpa [Nat.toDigitsCore] using h
  | succ f ih =>
      intro n ds h
      simp only [Nat.toDigitsCore]
      split
      · simp
      · exact ih (n / b) (Nat.digitChar (n % b) :: ds) (by simp)

theorem natToHex_ne_empty (n : Nat) : natToHex n ≠ "" := by
  intro h
  have hd : Nat.toDigits 16 n = [] := congrArg String.data h
  simp only [Nat.toDigits, Nat.toDigitsCore] at hd
  revert hd
  split
  · simp
  · exact toDigitsCore_ne_nil 16 n (n / 16) [Nat.digitChar (n % 16)] (by simp)

theorem pyHex_ne_empty (n : Int) : pyHex n ≠ "" := by
  unfold pyHex
  split
  · intro h
    have hd := congrArg String.data h
    simp only [String.data_append] at hd
    exact absurd hd (by simp [String.data])
  · exact natToHex_ne_empty _

theorem foldl_add_parseHex (l : List String) : ∀ a : Int,
    l.foldl (fun acc v => acc + parseHexInt v) a = a + (l.map parseHexInt).sum := by
  induction l with
  | nil => intro a; simp
  | cons x xs ih => intro a; simp [ih]; omega

theorem map_toNat_parseHex_sum (l : List String)
    (hb : ∀ t ∈ l, 0 ≤ parseHexInt t) :
    (l.map parseHexInt).sum = ((l.map (fun t => (parseHexInt t).toNat)).sum : Nat) := by
  induction l with
  | nil => simp
  | cons x xs ih =>
      simp only [List.map_cons, List.sum_cons, Nat.cast_add]
      rw [ih (fun t ht => hb t (List.mem_cons_of_mem _ ht)),
        Int.toNat_of_nonneg (hb x (List.mem_cons_self _ _))]

/-! ## C2: the checksum formula -/

/-- C2: for every sequence of byte tokens the checksum value computed by
`__calc_checksum` equals `(sum of the byte values + number of bytes) & 0x7F`
(the function is a pure function of its input, hence deterministic), and
for the empty sequence the checksum is 0. -/
theorem c2_checksum_formula (data : List String)
    (hb : ∀ t ∈ data, 0 ≤ parseHexInt t) :
    calc_checksum_value data =
      ((((data.map (fun t => (parseHexInt t).toNat)).sum + data.length) &&& 0x7F : Nat) : Int)
  ∧ calc_checksum_value [] = 0 := by
  refine ⟨?_, rfl⟩
  unfold calc_checksum_value calc_checksum_output
  rw [foldl_add_parseHex, zero_add, map_toNat_parseHex_sum data hb]
  have hcast :
      (((data.map (fun t => (parseHexInt t).toNat)).sum : Nat) : Int) + (data.length : Int) =
        ((((data.map (fun t => (parseHexInt t).toNat)).sum + data.length : Nat)) : Int) := by
    push_cast
    ring
  rw [hcast]
  rfl

/-- C2 witness: the checksum of the two-token message `F0 7F` is
`(0xF0 + 0x7F + 2) & 0x7F = 0x71`. -/
theorem c2_checksum_witness :
    calc_checksum_value ["F0", "7F"] = 113 := by
  have h := (c2_checksum_formula ["F0", "7F"] (by decide)).1
  rw [h]
  decide

/-! ## C10: get_volume doubles the payload byte, with no clamping -/

/-- C10: `get_volume` returns either `none` or exactly twice the byte at
offset 13 of the matched response; every returned value is even, and a
payload byte above 50 yields a value above 100 (up to 510 for a byte of
255). -/
theorem c10_get_volume_shape (resp : Option (List Nat)) :
    (get_volume_from_response resp = none ∨
      ∃ m b, resp = some m ∧ m[13]? = some b ∧
        get_volume_from_response resp = some (b * 2))
  ∧ (∀ v, get_volume_from_response resp = some v → v % 2 = 0)
  ∧ (∀ m b v, resp = some m → m[13]? = some b → b ≤ 255 →
      get_volume_from_response resp = some v → v ≤ 510)
  ∧ get_volume_from_response
      (some (List.replicate 13 0 ++ 255 :: List.replicate 10 0)) = some 510 := by
  refine ⟨?_, ?_, ?_, by decide⟩
  · match resp with
    | none => exact Or.inl rfl
    | some m =>
        match hm : m[13]? with
        | none =>
            left
            simp [get_volume_from_response, get_zone_info_value, hm]
        | some b =>
            right
            exact ⟨m, b, rfl, hm, by simp [get_volume_from_response, get_zone_info_value, hm]⟩
  · intro v hv
    match resp with
    | none => simp [get_volume_from_response] at hv
    | some m =>
        match hm : m[13]? with
        | none => simp [get_volume_from_response, get_zone_info_value, hm] at hv
        | some b =>
            simp [get_volume_from_response, get_zone_info_value, hm] at hv
            omega
  · intro m b v hresp hm hb hv
    subst hresp
    simp [get_volume_from_response, get_zone_info_value, hm] at hv
    omega

/-! ## C1: the 0xFF wildcard is not implemented by the comparison -/

/-- A 24-byte stream whose first window agrees with the signature
`FF 02` at every non-wildcard position (the only non-wildcard position
carries `0x02`). -/
def c1_stream : List Nat := 4 :: 2 :: List.replicate 22 0

/-- C1 (evidence of the divergence): according to the specification the
window at index 0 of `c1_stream` matches the signature `FF 02` — the
first signature position holds the wildcard 255 and the second agrees —
with 24 bytes remaining, yet `__find_signature` compares the window with
plain equality, so the wildcard position blocks the match and no message
is found. -/
theorem c1_wildcard_not_honored :
    spec_matches_at c1_stream [255, 2] 0 ∧
      (find_signature c1_stream [255, 2]).1 = none := by
  constructor
  · exact ⟨by decide, by decide⟩
  · decide

/-! ## Loop lemmas for `__find_signature` -/

theorem find_signature_loop_some_spec (s sig : List Nat) :
    ∀ rem i acc j f7, find_signature_loop s sig rem i acc = (some j, f7) →
      (s.drop j).take sig.length = sig ∧ 24 ≤ s.length - j ∧ i ≤ j := by
  intro rem
  induction rem with
  | zero => intro i acc j f7 h; exact absurd h (by simp [find_signature_loop])
  | succ rem ih =>
      intro i acc j f7 h
      simp only [find_signature_loop] at h
      split at h
      · injection h with h1 h2
        injection h1 with h1
        subst h1
        exact ⟨‹_ ∧ _›.1, ‹_ ∧ _›.2, Nat.le_refl _⟩
      · obtain ⟨a, b, c⟩ := ih (i + 1) _ j f7 h
        exact ⟨a, b, by omega⟩

theorem find_signature_loop_none_acc (s sig : List Nat) :
    ∀ rem i acc f7, find_signature_loop s sig rem i acc = (none, f7) →
      (∀ k, i ≤ k → k < i + rem → s.getD k 0 ≠ 247) → f7 = acc := by
  intro rem
  induction rem with
  | zero =>
      intro i acc f7 h _
      simp only [find_signature_loop] at h
      injection h with _ h2
      exact h2.symm
  | succ rem ih =>
      intro i acc f7 h hk
      simp only [find_signature_loop] at h
      split at h
      · injection h with h1 _
        cases h1
      · have hne : s.getD i 0 ≠ 247 := hk i (Nat.le_refl _) (by omega)
        rw [if_neg hne] at h
        exact ih (i + 1) acc f7 h (fun k hk1 hk2 => hk k (by omega) (by omega))

theorem find_signature_loop_none_lastF7 (s sig : List Nat) :
    ∀ rem i acc j f7, find_signature_loop s sig rem i acc = (none, f7) →
      i ≤ j → j < i + rem → s.getD j 0 = 247 →
      (∀ k, j < k → k < i + rem → s.getD k 0 ≠ 247) → f7 = some j := by
  intro rem
  induction rem with
  | zero => intro i acc j f7 _ h1 h2 _ _; omega
  | succ rem ih =>
      intro i acc j f7 h hij hjr h247 hlast
      simp only [find_signature_loop] at h
      split at h
      · injection h with h1 _
        cases h1
      · rcases Nat.eq_or_lt_of_le hij with heq | hlt
        · subst heq
          rw [if_pos h247] at h
          exact find_signature_loop_none_acc s sig rem (i + 1) (some i) f7 h
            (fun k hk1 hk2 => hlast k (by omega) (by omega))
        · have := ih (i + 1) _ j f7 h (by omega) (by omega) h247
            (fun k hk1 hk2 => hlast k hk1 (by omega))
          exact this

/-- Soundness of a `__find_signature` match: the returned message is the
tail slice `data_stream[i:]` for an index `i` at which the window equals
the signature with at least 24 bytes remaining, and the stream is
returned unchanged as the remainder. -/
theorem find_signature_some_spec (s sig m : List Nat)
    (h : (find_signature s sig).1 = some m) :
    ∃ i, i + 24 ≤ s.length ∧ (s.drop i).take sig.length = sig ∧ m = s.drop i ∧
      (find_signature s sig).2 = s := by
  unfold find_signature at h ⊢
  rcases hl : find_signature_loop s sig s.length 0 none with ⟨mi, f7⟩
  rw [hl] at h
  match mi, f7 with
  | some i, f7 =>
      obtain ⟨hsig, h24, -⟩ := find_signature_loop_some_spec s sig s.length 0 none i f7 hl
      have hi : i < s.length := by omega
      have hm : some (s.drop i) = some m := h
      exact ⟨i, by omega, hsig, (Option.some.inj hm).symm, rfl⟩
  | none, some j => exact absurd h (by simp)
  | none, none => exact absurd h (by simp)

/-! ## C6: match conditions and the returned slice -/

/-- C6: `__find_signature` reports a match with message `m` only when
there is an index `i` with at least 24 bytes remaining from `i`, the
window at `i` equal to the signature, and `m` the slice of the stream
from `i` to the end of the buffered stream (so `m` runs to the end, not
just over the signature-length window). -/
theorem c6_match_conditions (s sig m : List Nat)
    (h : (find_signature s sig).1 = some m) :
    ∃ i, i + 24 ≤ s.length ∧ (s.drop i).take sig.length = sig ∧
      m = s.drop i ∧ m.length = s.length - i := by
  obtain ⟨i, h24, hsig, rfl, -⟩ := find_signature_some_spec s sig m h
  exact ⟨i, h24, hsig, rfl, List.length_drop i s⟩

/-- C6 witness: a 24-byte stream starting with the signature `04 02`
matches, and the returned message is the whole buffered stream. -/
theorem c6_match_witness :
    ∃ i, i + 24 ≤ (4 :: 2 :: List.replicate 22 7 : List Nat).length ∧
      (((4 :: 2 :: List.replicate 22 7 : List Nat)).drop i).take
          ([4, 2] : List Nat).length = [4, 2] ∧
      (4 :: 2 :: List.replicate 22 7 : List Nat) =
        ((4 :: 2 :: List.replicate 22 7 : List Nat)).drop i ∧
      (4 :: 2 :: List.replicate 22 7 : List Nat).length =
        (4 :: 2 :: List.replicate 22 7 : List Nat).length - i :=
  c6_match_conditions (4 :: 2 :: List.replicate 22 7) [4, 2]
    (4 :: 2 :: List.replicate 22 7) (by decide)

/-! ## C9: matched messages are long enough for the payload reads -/

/-- C9: every message returned by `__find_signature` is at least 24
bytes long, is a suffix of the input stream, begins with the signature,
and therefore the `get_zone_info` payload reads at offsets 11, 12 and 13
(single-field mode 0/1/2 and list mode 4) never index past its end. -/
theorem c9_matched_message_safe (s sig m : List Nat)
    (h : (find_signature s sig).1 = some m) :
    24 ≤ m.length ∧ m.take sig.length = sig ∧ m <:+ s ∧
      (∀ rv, rv ≤ 2 → (get_zone_info_value m rv).isSome) ∧
      (zone_info_extract m 4).isSome := by
  obtain ⟨i, h24, hsig, rfl, -⟩ := find_signature_some_spec s sig m h
  have hlen : 24 ≤ (s.drop i).length := by
    rw [List.length_drop]; omega
  refine ⟨hlen, hsig, List.drop_suffix i s, ?_, ?_⟩
  · intro rv hrv
    have hlt : rv + 11 < (s.drop i).length := by omega
    simp [get_zone_info_value, List.getElem?_eq_getElem hlt]
  · have h11 : 11 < (s.drop i).length := by omega
    have h12 : 12 < (s.drop i).length := by omega
    have h13 : 13 < (s.drop i).length := by omega
    simp [zone_info_extract, List.getElem?_eq_getElem h11,
      List.getElem?_eq_getElem h12, List.getElem?_eq_getElem h13]

/-- C9 witness: a concrete 24-byte matched message admits all the
payload reads. -/
theorem c9_matched_message_witness :
    24 ≤ (9 :: 8 :: List.replicate 22 1 : List Nat).length ∧
      (9 :: 8 :: List.replicate 22 1 : List Nat).take
          ([9, 8] : List Nat).length = [9, 8] ∧
      (9 :: 8 :: List.replicate 22 1 : List Nat) <:+
        (9 :: 8 :: List.replicate 22 1 : List Nat) ∧
      (∀ rv, rv ≤ 2 →
        (get_zone_info_value (9 :: 8 :: List.replicate 22 1) rv).isSome) ∧
      (zone_info_extract (9 :: 8 :: List.replicate 22 1) 4).isSome :=
  c9_matched_message_safe (9 :: 8 :: List.replicate 22 1) [9, 8]
    (9 :: 8 :: List.replicate 22 1) (by decide)

/-! ## C8: with no end marker, nothing is discarded -/

/-- C8: when `__find_signature` finds no match and the buffered stream
contains no `0xF7` byte at all, the returned remainder is the entire
input stream unchanged. -/
theorem c8_no_f7_keeps_stream (s sig : List Nat) (hf7 : 247 ∉ s)
    (h : (find_signature s sig).1 = none) :
    (find_signature s sig).2 = s := by
  unfold find_signature at h ⊢
  rcases hl : find_signature_loop s sig s.length 0 none with ⟨mi, f7⟩
  rw [hl] at h
  match mi, f7 with
  | some i, f7 => exact absurd h (by simp)
  | none, some j =>
      have hno : ∀ k, 0 ≤ k → k < 0 + s.length → s.getD k 0 ≠ 247 := by
        intro k _ hk
        have hk' : k < s.length := by omega
        rw [List.getD_eq_getElem?_getD, List.getElem?_eq_getElem hk']
        intro hEq
        exact hf7 (hEq ▸ List.getElem_mem hk')
      have := find_signature_loop_none_acc s sig s.length 0 none (some j) hl hno
      cases this
  | none, none => rfl

/-- C8 witness: a stream with no `0xF7` and no match comes back whole. -/
theorem c8_no_f7_witness : (find_signature [1, 2, 3] [9]).2 = [1, 2, 3] :=
  c8_no_f7_keeps_stream [1, 2, 3] [9] (by decide) (by decide)

/-! ## C4: what is discarded on a failed search -/

/-- C4 counterexample: for the stream `01 F7 05` (no match for the
signature `09`), the last end marker `0xF7` sits at index 1, so the
claim's trimming rule — discard everything up to *and including* it —
predicts the remainder `[5]`; the code instead returns `[247, 5]`,
keeping the end-marker byte itself. -/
theorem c4_trim_counterexample :
    (find_signature [1, 247, 5] [9]).1 = none ∧
      (find_signature [1, 247, 5] [9]).2 = [247, 5] ∧
      (find_signature [1, 247, 5] [9]).2 ≠ List.drop (1 + 1) [1, 247, 5] := by
  refine ⟨by decide, by decide, by decide⟩

/-- C4 (amended): when `__find_signature` finds no match, it discards
exactly the bytes strictly before the last observed `0xF7` and returns
the remainder starting with that `0xF7` byte. -/
theorem c4_amended_trim_to_last_f7 (s sig : List Nat) (j : Nat)
    (hj : j < s.length) (h247 : s.getD j 0 = 247)
    (hlast : ∀ k, j < k → k < s.length → s.getD k 0 ≠ 247)
    (h : (find_signature s sig).1 = none) :
    (find_signature s sig).2 = s.drop j := by
  unfold find_signature at h ⊢
  rcases hl : find_signature_loop s sig s.length 0 none with ⟨mi, f7⟩
  rw [hl] at h
  match mi, f7 with
  | some i, f7 => exact absurd h (by simp)
  | none, f7 =>
      have hf7 : f7 = some j :=
        find_signature_loop_none_lastF7 s sig s.length 0 none j f7 hl
          (Nat.zero_le _) (by omega) h247 (fun k hk1 hk2 => hlast k hk1 (by omega))
      subst hf7
      rfl

/-- C4 (amended) witness: for `01 F7 05` the remainder is `F7 05`. -/
theorem c4_amended_witness : (find_signature [1, 247, 5] [3]).2 = [247, 5] :=
  c4_amended_trim_to_last_f7 [1, 247, 5] [3] 1 (by decide) (by decide)
    (by intro k h1 h2; have h3 : k < 3 := by simpa using h2
        interval_cases k
        decide) (by decide)

/-! ## C3: zero-based encoding of controller and zone -/

theorem filter_ne_empty_eq_self (l : List String) (h : ∀ t ∈ l, t ≠ "") :
    l.filter (fun t => t != "") = l :=
  List.filter_eq_self.mpr fun a ha => bne_iff_ne.mpr (h a ha)

theorem power_msg_tokens (c z p : Int) :
    create_send_message POWER_TEMPLATE c (some z) (some p) =
      calc_checksum
        ["F0", pyHex (c - 1), "00", "7F", "00", "00", "70", "05", "02",
         "02", "00", "00", "F1", "23", "00", pyHex p, "00", pyHex (z - 1),
         "00", "01"] := by
  have h0 : create_send_message POWER_TEMPLATE c (some z) (some p) =
      calc_checksum
        ((["F0", pyHex (c - 1), "00", "7F", "00", "00", "70", "05", "02",
           "02", "00", "00", "F1", "23", "00", pyHex p, "00",
           pyHex (z - 1), "00", "01"]).filter (fun t => t != "")) := rfl
  rw [h0, filter_ne_empty_eq_self]
  intro t ht
  fin_cases ht <;> first | exact pyHex_ne_empty _ | decide

/-- C3: for controller and zone in [1, 8] the builder encodes the
`@cc` placeholder (token position 1) as the hex digits of
`controller - 1` and the `@zz` placeholder (token position 17) as the
hex digits of `zone - 1` — the zero-based RNET encoding. -/
theorem c3_zero_based_encoding (c z p : Int)
    (hc1 : 1 ≤ c) (hc8 : c ≤ 8) (hz1 : 1 ≤ z) (hz8 : z ≤ 8) :
    (create_send_message POWER_TEMPLATE c (some z) (some p))[1]? =
        some (natToHex (c - 1).toNat)
  ∧ (create_send_message POWER_TEMPLATE c (some z) (some p))[17]? =
        some (natToHex (z - 1).toNat) := by
  have hcc : pyHex (c - 1) = natToHex (c - 1).toNat := by
    unfold pyHex
    rw [if_neg (by omega)]
  have hzz : pyHex (z - 1) = natToHex (z - 1).toNat := by
    unfold pyHex
    rw [if_neg (by omega)]
  constructor
  · rw [power_msg_tokens]
    show some (pyHex (c - 1)) = some (natToHex (c - 1).toNat)
    rw [hcc]
  · rw [power_msg_tokens]
    show some (pyHex (z - 1)) = some (natToHex (z - 1).toNat)
    rw [hzz]

/-- C3 witness: controller 2 and zone 3 encode as tokens `1` and `2`. -/
theorem c3_zero_based_witness :
    (create_send_message POWER_TEMPLATE 2 (some 3) (some 1))[1]? =
        some (natToHex ((2 : Int) - 1).toNat)
  ∧ (create_send_message POWER_TEMPLATE 2 (some 3) (some 1))[17]? =
        some (natToHex ((3 : Int) - 1).toNat) :=
  c3_zero_based_encoding 2 3 1 (by decide) (by decide) (by decide) (by decide)

/-- C3 counterexample: building with controller = 0 (or zone = 0) does
not fail with an InvalidArgument error at the builder boundary — the
source performs `hex(0 - 1).replace('0x', '')`, obtaining the token
`'-1'`, substitutes it, and returns a complete 22-token message. -/
theorem c3_zero_controller_counterexample :
    (create_send_message POWER_TEMPLATE 0 (some 1) (some 1))[1]? = some "-1"
  ∧ (create_send_message POWER_TEMPLATE 0 (some 1) (some 1)).length = 22
  ∧ (create_send_message POWER_TEMPLATE 1 (some 0) (some 1))[17]? = some "-1"
  ∧ (create_send_message POWER_TEMPLATE 1 (some 0) (some 1)).length = 22 := by
  refine ⟨by decide, by decide, by decide, by decide⟩

/-! ## C5: the volume halve/double round trip -/

theorem volume_msg_tokens (c z p : Int) :
    create_send_message VOLUME_TEMPLATE c (some z) (some p) =
      calc_checksum
        ["F0", pyHex (c - 1), "00", "7F", "00", "00", "70", "05", "02",
         "02", "00", "00", "F1", "21", "00", pyHex p, "00", pyHex (z - 1),
         "00", "01"] := by
  have h0 : create_send_message VOLUME_TEMPLATE c (some z) (some p) =
      calc_checksum
        ((["F0", pyHex (c - 1), "00", "7F", "00", "00", "70", "05", "02",
           "02", "00", "00", "F1", "21", "00", pyHex p, "00",
           pyHex (z - 1), "00", "01"]).filter (fun t => t != "")) := rfl
  rw [h0, filter_ne_empty_eq_self]
  intro t ht
  fin_cases ht <;> first | exact pyHex_ne_empty _ | decide

/-- C5: `set_volume` places the hex encoding of `volume // 2` in the
parameter token (position 15) of the volume message, and `get_volume`
doubles the payload byte it reads back, so a device that echoes the
stored parameter returns `volume` for even inputs and `volume - 1` for
odd inputs; in particular both 100 and 101 transmit 50 (and hence round
trip to 100). -/
theorem c5_volume_round_trip (v : Nat) (c z : Int) (m : List Nat)
    (hm : m[13]? = some (set_volume_param v)) :
    (set_volume_msg c z v)[15]? = some (natToHex (v / 2))
  ∧ get_volume_from_response (some m) = some (if v % 2 = 0 then v else v - 1)
  ∧ set_volume_param 100 = 50 ∧ set_volume_param 101 = 50 := by
  refine ⟨?_, ?_, rfl, rfl⟩
  · unfold set_volume_msg
    rw [volume_msg_tokens]
    show some (pyHex ((v / 2 : Nat) : Int)) = some (natToHex (v / 2))
    unfold pyHex
    rw [if_neg (by exact not_lt.mpr (Int.natCast_nonneg _))]
    rw [Int.toNat_natCast]
  · have : get_volume_from_response (some m) = (m[13]?).map (fun b => b * 2) := rfl
    rw [this, hm]
    unfold set_volume_param
    rcases Nat.mod_two_eq_zero_or_one v with h | h <;> simp [h] <;> omega

/-- C5 witness: volume 100 transmits 50 and reads back as 100. -/
theorem c5_volume_witness :
    (set_volume_msg 1 1 100)[15]? = some (natToHex (100 / 2))
  ∧ get_volume_from_response (some (List.replicate 13 0 ++ [50])) =
      some (if 100 % 2 = 0 then 100 else 100 - 1)
  ∧ set_volume_param 100 = 50 ∧ set_volume_param 101 = 50 :=
  c5_volume_round_trip 100 1 1 (List.replicate 13 0 ++ [50]) (by decide)

/-! ## C7: the read-attempt budget of `__get_response_message` -/

theorem resp_loop_all_none (sig : List Nat) (reads : List (List Nat)) :
    ∀ rem i, (∀ k, i ≤ k → k < i + rem → attempt_result sig reads k = none) →
      resp_loop sig reads i rem (resp_buf sig reads i) = (none, i + rem) := by
  intro rem
  induction rem with
  | zero => intro i _; simp [resp_loop]
  | succ rem ih =>
      intro i h
      have h1 : attempt_result sig reads i = none := h i (Nat.le_refl _) (by omega)
      unfold attempt_result at h1
      simp only [resp_loop]
      rcases hfs : find_signature (resp_buf sig reads i ++ reads.getD i []) sig
        with ⟨m1, d2⟩
      rw [hfs] at h1
      simp only at h1
      subst h1
      have hb : resp_buf sig reads (i + 1) = d2 := by
        simp only [resp_buf]
        rw [hfs]
      have hrec := ih (i + 1) (fun k hk1 hk2 => h k (by omega) (by omega))
      have harith : i + 1 + rem = i + (rem + 1) := by omega
      rw [hb, harith] at hrec
      exact hrec

theorem resp_loop_first_match (sig : List Nat) (reads : List (List Nat)) :
    ∀ rem i j, i ≤ j → j < i + rem →
      (∀ k, i ≤ k → k < j → attempt_result sig reads k = none) →
      attempt_result sig reads j ≠ none →
      resp_loop sig reads i rem (resp_buf sig reads i) =
        (attempt_result sig reads j, j + 1) := by
  intro rem
  induction rem with
  | zero => intro i j h1 h2 _ _; omega
  | succ rem ih =>
      intro i j hij hjr hnone hj
      simp only [resp_loop]
      rcases hfs : find_signature (resp_buf sig reads i ++ reads.getD i []) sig
        with ⟨m1, d2⟩
      rcases Nat.eq_or_lt_of_le hij with heq | hlt
      · subst heq
        have ha : attempt_result sig reads i = m1 := by
          unfold attempt_result
          rw [hfs]
        rcases m1 with _ | m
        · exact absurd ha hj
        · rw [ha]
      · have ha : attempt_result sig reads i = none := hnone i (Nat.le_refl _) hlt
        unfold attempt_result at ha
        rw [hfs] at ha
        simp only at ha
        subst ha
        have hb : resp_buf sig reads (i + 1) = d2 := by
          simp only [resp_buf]
          rw [hfs]
        have hrec := ih (i + 1) j (by omega) (by omega)
          (fun k hk1 hk2 => hnone k (by omega) hk2) hj
        rw [hb] at hrec
        exact hrec

/-- C7: `__get_response_message` performs exactly one read attempt and
returns `None` when no signature is supplied; with a signature it
performs at most 10 read attempts, stops at the first attempt whose
`__find_signature` call yields a match (returning that message and
having read exactly `first + 1` times), and returns `None` — not an
exception — when no attempt within the budget matches. -/
theorem c7_response_read_budget (sig : List Nat) (reads : List (List Nat)) :
    get_response_message none reads = (none, 1)
  ∧ (get_response_message (some sig) reads).2 ≤ 10
  ∧ (∀ m, (get_response_message (some sig) reads).1 = some m →
      ∃ j, j < 10 ∧ (get_response_message (some sig) reads).2 = j + 1 ∧
        attempt_result sig reads j = some m ∧
        ∀ k, k < j → attempt_result sig reads k = none)
  ∧ ((∀ k, k < 10 → attempt_result sig reads k = none) →
      (get_response_message (some sig) reads).1 = none) := by
  have hget : get_response_message (some sig) reads =
      resp_loop sig reads 0 10 (resp_buf sig reads 0) := rfl
  have hmain : get_response_message (some sig) reads = (none, 10) ∨
      ∃ j, j < 10 ∧ attempt_result sig reads j ≠ none ∧
        (∀ k, k < j → attempt_result sig reads k = none) ∧
        get_response_message (some sig) reads =
          (attempt_result sig reads j, j + 1) := by
    by_cases hall : ∀ k, k < 10 → attempt_result sig reads k = none
    · left
      rw [hget]
      simpa using resp_loop_all_none sig reads 10 0
        (fun k _ hk2 => hall k (by omega))
    · right
      push_neg at hall
      obtain ⟨k0, hk0, hk0ne⟩ := hall
      have hex : ∃ k, attempt_result sig reads k ≠ none := ⟨k0, hk0ne⟩
      have hfind10 : Nat.find hex < 10 :=
        lt_of_le_of_lt (Nat.find_min' hex hk0ne) hk0
      refine ⟨Nat.find hex, hfind10, Nat.find_spec hex, ?_, ?_⟩
      · intro k hk
        exact not_not.mp (Nat.find_min hex hk)
      · rw [hget]
        simpa using resp_loop_first_match sig reads 10 0 (Nat.find hex)
          (Nat.zero_le _) (by omega)
          (fun k _ hk2 => not_not.mp (Nat.find_min hex hk2))
          (Nat.find_spec hex)
  rcases hmain with hR | ⟨j, hj10, hjne, hjmin, hR⟩
  · refine ⟨rfl, ?_, ?_, ?_⟩
    · rw [hR]
    · intro m hm
      rw [hR] at hm
      simp at hm
    · intro _
      rw [hR]
  · refine ⟨rfl, ?_, ?_, ?_⟩
    · rw [hR]
      omega
    · intro m hm
      rw [hR] at hm
      exact ⟨j, hj10, by rw [hR], by simpa using hm, hjmin⟩
    · intro hip
      exact absurd (hip j hj10) hjne

/-- C7 witness: with a signature and no incoming data, all ten attempts
fail to match and the result is `None`. -/
theorem c7_response_witness :
    (get_response_message (some [1]) []).1 = none :=
  (c7_response_read_budget [1] []).2.2.2 (by decide)

/-- C10 witness: a response carrying payload byte 255 at offset 13 is
returned as 510, an even value above 100. -/
theorem c10_get_volume_witness :
    (510 : Nat) % 2 = 0 ∧
      get_volume_from_response (some (List.replicate 13 0 ++ [255])) =
        some 510 :=
  ⟨(c10_get_volume_shape (some (List.replicate 13 0 ++ [255]))).2.1 510
      (by decide),
    by decide⟩

end Russound
